import Mathlib

/-!
Shallow embedding of the streaming inference gateway of this repository
(backend/src/ai-gateway/ai-gateway.service.ts, backend/src/cache/cache.module.ts,
backend/src/rate-limit/rate-limit.service.ts, and the stream registry service),
together with theorems settling the specification claims about it.

Machine integers of the source are modelled as Nat (all quantities involved are
small non-negative counters, millisecond durations and HTTP status codes; no
overflow is reachable). JavaScript errors are modelled by their observable
fields (name, code, response status), exactly the fields the source inspects.
-/

namespace AiGateway

/-- A JavaScript error value as observed by the gateway code: the source only
reads `error.name`, `error.code` and `error.response?.status`.
`respStatus = none` models an error with no `response` field. -/
structure JsErr where
  name : String
  code : String
  respStatus : Option Nat
deriving DecidableEq

/-- Source constant `MAX_RETRIES = 3` (ai-gateway.service.ts line 15). -/
def MAX_RETRIES : Nat := 3

/-- Source constant `AI_ENGINE_TIMEOUT = 120000` ms (ai-gateway.service.ts line 14). -/
def AI_ENGINE_TIMEOUT : Nat := 120000

/-- Classification at line 68 of ai-gateway.service.ts: the error name equals
`CanceledError` or the error code equals `ERR_CANCELED`. -/
def isCanceledErr (e : JsErr) : Bool :=
  e.name == "CanceledError" || e.code == "ERR_CANCELED"

/-- Classification at line 74 of ai-gateway.service.ts:
`error.response?.status >= 400 && error.response?.status < 500`.
When the error has no response, the optional chain yields `undefined` and both
comparisons are false. -/
def isClientErr (e : JsErr) : Bool :=
  match e.respStatus with
  | some s => decide (400 ≤ s) && decide (s < 500)
  | none => false

/-- Backoff delay at line 80: `Math.min(1000 * Math.pow(2, attempt - 1), 10000)`. -/
def retryDelay (attempt : Nat) : Nat :=
  min (1000 * 2 ^ (attempt - 1)) 10000

/-- Observable trace of one run of the retry wrapper: which attempts were
started (in order), which delays were waited between attempts, and the final
result (a response token or the rethrown error). -/
structure RunTrace where
  started : List Nat
  delays : List Nat
  result : Except JsErr Nat

/-- Embedding of `callAIEngineWithRetry` (ai-gateway.service.ts lines 33-93).
`env k` is the outcome of the k-th upstream attempt (1-indexed): `ok` is a
response, `error` a thrown JS error. The catch block first rethrows
cancellation-classified errors, then client errors (4xx), then, while
`attempt < MAX_RETRIES`, waits `retryDelay attempt` and recurses with
`attempt + 1`; once attempts are exhausted it rethrows the last error. -/
def callAIEngineWithRetry (env : Nat → Except JsErr Nat) (attempt : Nat) : RunTrace :=
  match env attempt with
  | Except.ok r => ⟨[attempt], [], Except.ok r⟩
  | Except.error e =>
    if isCanceledErr e then ⟨[attempt], [], Except.error e⟩
    else if isClientErr e then ⟨[attempt], [], Except.error e⟩
    else if attempt < MAX_RETRIES then
      let rest := callAIEngineWithRetry env (attempt + 1)
      ⟨attempt :: rest.started, retryDelay attempt :: rest.delays, rest.result⟩
    else ⟨[attempt], [], Except.error e⟩
termination_by MAX_RETRIES - attempt
decreasing_by simp_wf; omega

/-- The error axios throws when the request is aborted through an AbortController
signal: name `CanceledError`, code `ERR_CANCELED`, no HTTP response. -/
def canceledErr : JsErr :=
  ⟨"CanceledError", "ERR_CANCELED", none⟩

/-- A transient network failure (no HTTP response), e.g. a reset connection. -/
def netErr : JsErr :=
  ⟨"Error", "ECONNRESET", none⟩

/-- The upstream environment as seen through the external abort signal wiring of
the source: the signal listener is attached only inside the call that receives
`externalSignal` (lines 46-51), and the recursive retry call at line 87 passes
no signal. Hence only attempt 1 can be aborted by the caller: if the signal has
fired by attempt 1, that attempt throws the axios cancellation error; every
later attempt runs unobserved by the signal and yields the upstream outcome.
`fired k` states that the caller cancellation signal has fired before the end
of attempt k. -/
def envWithSignal (upstream : Nat → Except JsErr Nat) (fired : Nat → Bool)
    (k : Nat) : Except JsErr Nat :=
  if k = 1 && fired 1 then Except.error canceledErr else upstream k

/-- The error produced when an attempt exceeds the hard timeout: the
`setTimeout` at lines 40-43 aborts the shared AbortController, and axios
rejects a request aborted through its signal with a `CanceledError` carrying
code `ERR_CANCELED` and no HTTP response. The abort timer is registered before
the axios call, so it fires no later than the axios-internal timeout of the
same 120000 ms duration. -/
def hardTimeoutErr : JsErr := canceledErr

/-- An upstream environment in which attempt 1 fails transiently and attempt 2
would succeed. -/
def upFailOnce : Nat → Except JsErr Nat :=
  fun k => if k = 1 then Except.error netErr else Except.ok 0

/-- A cancellation signal that fires during the retry delay scheduled after
attempt 1, i.e. it has fired by the start of every attempt from 2 on. -/
def firedAfterFirst : Nat → Bool :=
  fun k => decide (2 ≤ k)

/-! ### Title heuristic (ai-gateway.service.ts lines 99-127)

JavaScript strings are modelled as lists of characters (all behaviour the
claims exercise is on plain BMP text, where a JS code unit is one character).
-/

/-- A whitespace character as matched by `trim()` and the regex class `\s`
on the inputs in scope. -/
def isWsChar (c : Char) : Bool :=
  c == ' ' || c == '\t' || c == '\n' || c == '\r'

/-- Sentence-terminal punctuation, the regex class `[.!?]` at line 104. -/
def isTermMark (c : Char) : Bool :=
  c == '.' || c == '!' || c == '?'

/-- `String.prototype.trim()`: drop whitespace from both ends. -/
def trimWs (l : List Char) : List Char :=
  ((l.dropWhile isWsChar).reverse.dropWhile isWsChar).reverse

/-- Replace each maximal run of whitespace by a single space, the effect of
`replace(/\s+/g, ' ')`. The boolean argument records whether the previous
character belonged to a whitespace run. -/
def squeezeWsAux : Bool → List Char → List Char
  | _, [] => []
  | prevWs, c :: rest =>
    if isWsChar c then
      if prevWs then squeezeWsAux true rest
      else ' ' :: squeezeWsAux true rest
    else c :: squeezeWsAux false rest

/-- Line 101: `message.trim().replace(/\s+/g, ' ')`. -/
def normalizeWs (m : List Char) : List Char :=
  squeezeWsAux false (trimWs m)

/-- The regex match `^[^.!?]+[.!?]` at line 104: at least one non-terminal
character followed by one terminal mark; `none` when the regex does not match. -/
def firstSentence (l : List Char) : Option (List Char) :=
  let pre := l.takeWhile (fun c => !isTermMark c)
  if pre.isEmpty then none
  else
    match l.drop pre.length with
    | [] => none
    | m :: _ => some (pre ++ [m])

/-- `String.prototype.lastIndexOf` restricted to one character; `none` models
the JS return value -1. -/
def lastIdxOf (ch : Char) : List Char → Option Nat
  | [] => none
  | c :: rest =>
    match lastIdxOf ch rest with
    | some i => some (i + 1)
    | none => if c == ch then some 0 else none

/-- The appended three-dot ellipsis of lines 123 and 126. -/
def ellipsis : List Char := ['.', '.', '.']

/-- Embedding of `generateTitleFromMessage` (lines 99-127): normalize
whitespace; if the first-sentence regex matches and the trimmed sentence has at
most 60 characters, return it; otherwise return the message verbatim when it
has at most 50 characters, else keep the first 50 characters, cut back to the
last space when its index exceeds 30, and append an ellipsis. -/
def generateTitleFromMessage (message : List Char) : List Char :=
  let cleanMessage := normalizeWs message
  let sentencePart : Option (List Char) :=
    match firstSentence cleanMessage with
    | some s0 =>
      let sentence := trimWs s0
      if sentence.length ≤ 60 then some sentence else none
    | none => none
  match sentencePart with
  | some s => s
  | none =>
    if cleanMessage.length ≤ 50 then cleanMessage
    else
      let truncated := cleanMessage.take 50
      match lastIdxOf ' ' truncated with
      | some i => if 30 < i then truncated.take i ++ ellipsis else truncated ++ ellipsis
      | none => truncated ++ ellipsis

/-- Index of the first sentence-terminal mark of a text, stated independently
of the code (used to phrase the claims about the title heuristic). -/
def firstMarkIdx : List Char → Option Nat
  | [] => none
  | c :: rest =>
    if isTermMark c then some 0
    else
      match firstMarkIdx rest with
      | some i => some (i + 1)
      | none => none

/-! ### The natural-completion handler of streamChat (lines 232-258)

The `end` listener is an `async` callback registered on the upstream response
stream. Its body is a sequence of awaited effects: persist the accumulated
assistant message, four cache deletions, then one `done` event and
`observer.complete()`. A rejection of any awaited step aborts the rest of the
body; since nothing catches inside the listener and the surrounding
`try/catch` of the outer async block has already run to completion by the time
`end` fires, such a rejection becomes an unhandled promise rejection and the
observer receives neither an event nor a terminal notification. -/

/-- An event forwarded to the SSE observer. -/
inductive SseEvent where
  | contentEvt : String → SseEvent
  | doneEvt : String → SseEvent
  | errorEvt : String → SseEvent
deriving DecidableEq

/-- How the observable terminates from the viewpoint of the subscriber:
completed, errored, or not terminated at all because the handler leaked an
unhandled promise rejection. -/
inductive Terminal where
  | completedT : Terminal
  | erroredT : String → Terminal
  | unhandledRejection : String → Terminal
deriving DecidableEq

/-- Events emitted plus terminal disposition of one run of a stream handler. -/
structure EndOutcome where
  events : List SseEvent
  terminal : Terminal
deriving DecidableEq

/-- First rejection among a sequence of awaited effects, if any. -/
def firstErr : List (Except String Unit) → Option String
  | [] => none
  | Except.ok _ :: rest => firstErr rest
  | Except.error e :: _ => some e

/-- Embedding of the `end` listener (lines 232-258). `save` is the outcome of
`chatService.saveMessage` for the accumulated assistant message, `dels` the
outcomes of the four awaited cache deletions that follow it. The `done` event
and `observer.complete()` run only when every awaited step resolved; the first
rejected step ends the listener with an unhandled rejection and no event. -/
def onEndHandler (save : Except String Unit) (dels : List (Except String Unit))
    (convId : String) : EndOutcome :=
  match save with
  | Except.error e => { events := [], terminal := Terminal.unhandledRejection e }
  | Except.ok _ =>
    match firstErr dels with
    | some e => { events := [], terminal := Terminal.unhandledRejection e }
    | none => { events := [SseEvent.doneEvt convId], terminal := Terminal.completedT }

end AiGateway

namespace RateLimit

/-- Embedding of one `checkLimit` call (rate-limit.service.ts lines 15-42) on
the counter stored for one identity key, inside one window. `none` models an
absent key (first request, or window expired). Returns the admission decision
and the stored counter afterwards. The catch branch of the source (counter
store unreachable, fail-open `true`) is outside this model, which covers a
healthy store. -/
def checkLimit (limit : Nat) : Option Nat → Bool × Option Nat
  | none => (true, some 1)
  | some current =>
    if limit ≤ current then (false, some current)
    else (true, some (current + 1))

/-- `n` consecutive `checkLimit` calls for one identity inside one active
window, starting from an absent key: final stored counter and the admission
results in order. -/
def runRequests (limit : Nat) : Nat → Option Nat × List Bool
  | 0 => (none, [])
  | n + 1 =>
    let prev := runRequests limit n
    let step := checkLimit limit prev.1
    (step.2, prev.2 ++ [step.1])

end RateLimit

namespace StreamReg

/-- The `StreamInfo` record of the stream registry service; timestamps in
epoch milliseconds. -/
structure StreamInfo where
  streamId : String
  userId : String
  conversationId : String
  createdAt : Nat
  lastActivityAt : Nat
  expiresAt : Nat
deriving DecidableEq

/-- Source constant `STREAM_TIMEOUT = 300` seconds. -/
def STREAM_TIMEOUT : Nat := 300

/-- Embedding of `registerStream` at time `now`: the stored session record
(the generated uuid is passed in as `streamId`). `expiresAt` is set to
`now + STREAM_TIMEOUT * 1000`. -/
def registerStream (userId conversationId streamId : String) (now : Nat) : StreamInfo :=
  { streamId := streamId, userId := userId, conversationId := conversationId,
    createdAt := now, lastActivityAt := now, expiresAt := now + STREAM_TIMEOUT * 1000 }

/-- Embedding of `updateActivity` at time `now` on a stored session `s`: sets
`lastActivityAt` to `now`, recomputes the remaining ttl as
`ceil((expiresAt - now) / 1000)` and re-stores the record only when that ttl
is positive. Returns the record as re-stored, `none` when the ttl was not
positive (the record is not written back). -/
def updateActivity (s : StreamInfo) (now : Nat) : Option StreamInfo :=
  let s2 := { s with lastActivityAt := now }
  let ttl := (s2.expiresAt - now + 999) / 1000
  if 0 < ttl then some s2 else none

end StreamReg

namespace CacheSvc

/-- A JavaScript value as stored in the cache: `undef` and `nullv` are the two
absence-markers the source tests for, the rest are ordinary values, including
the falsy-but-valid ones (`false`, `0`, the empty string, the empty list). -/
inductive JsVal where
  | undef : JsVal
  | nullv : JsVal
  | boolv : Bool → JsVal
  | numv : Int → JsVal
  | strv : String → JsVal
  | listv : List JsVal → JsVal

/-- The presence check of cache.module.ts line 34:
`cached !== undefined && cached !== null`. -/
def isPresent : JsVal → Bool
  | JsVal.undef => false
  | JsVal.nullv => false
  | _ => true

/-- Cache contents: key, value, ttl (seconds) per entry. TTL expiry is
modelled as removal of the entry; within a window entries simply persist. -/
abbrev CacheEntries : Type := List (String × JsVal × Nat)

/-- `cacheManager.get`: the stored value, or `undefined` when the key is
absent. -/
def cacheGet (st : CacheEntries) (k : String) : JsVal :=
  match List.find? (fun p => p.1 == k) st with
  | some p => p.2.1
  | none => JsVal.undef

/-- `cacheManager.set`: store `v` under `k` with ttl `ttl`, replacing any
previous entry for `k`. -/
def cacheSet (st : CacheEntries) (k : String) (v : JsVal) (ttl : Nat) : CacheEntries :=
  (k, v, ttl) :: List.filter (fun p => !(p.1 == k)) st

/-- Which backing-store operations throw during one `getOrSet` call. -/
structure StoreBeh where
  getFails : Bool
  setFails : Bool
deriving DecidableEq

/-- Result of one `getOrSet` call: what the caller gets back (value or
exception), the cache contents afterwards, and how many times the factory was
invoked. -/
structure GetOrSetRun where
  result : Except String JsVal
  state : CacheEntries
  calls : Nat

/-- Embedding of `CacheService.getOrSet` (cache.module.ts lines 26-46).
`factory j` is the outcome of the j-th invocation of the factory within this
call (1-indexed); an `error` is a thrown/rejected factory. The try block reads
the key, returns a present cached value without invoking the factory, and
otherwise invokes the factory once and stores its value. Any throw inside the
try block (backing-store get or set, or the factory itself) lands in the catch
block, which invokes the factory again and returns that outcome directly,
storing nothing. -/
def getOrSet (key : String) (factory : Nat → Except String JsVal) (ttl : Nat)
    (beh : StoreBeh) (st : CacheEntries) : GetOrSetRun :=
  if beh.getFails then
    { result := factory 1, state := st, calls := 1 }
  else
    let cached := cacheGet st key
    if isPresent cached then
      { result := Except.ok cached, state := st, calls := 0 }
    else
      match factory 1 with
      | Except.error _ => { result := factory 2, state := st, calls := 2 }
      | Except.ok value =>
        if beh.setFails then
          { result := factory 2, state := st, calls := 2 }
        else
          { result := Except.ok value, state := cacheSet st key value ttl, calls := 1 }

/-- A contiguous-sublist test: `hasSubList pat l` holds when `pat` occurs
inside `l`. -/
def hasSubList (pat : List Char) : List Char → Bool
  | [] => pat.isEmpty
  | c :: rest => pat.isPrefixOf (c :: rest) || hasSubList pat rest

/-- `String.prototype.includes` as used by the key filter at line 52. -/
def jsIncludes (s pat : String) : Bool :=
  hasSubList pat.data s.data

/-- `cacheManager.del k`: remove the entry for key `k` (a no-op when absent). -/
def delKey (st : CacheEntries) (k : String) : CacheEntries :=
  List.filter (fun p => !(p.1 == k)) st

/-- Embedding of `invalidatePattern` (lines 48-61): enumerate all stored keys
and delete every key containing the pattern as a substring. -/
def invalidatePattern (st : CacheEntries) (pattern : String) : CacheEntries :=
  List.filter (fun p => !(jsIncludes p.1 pattern)) st

/-- Embedding of `invalidateConversation` (lines 87-91): delete the
conversation-detail key, then invalidate the `messages:<id>` and `files:<id>`
patterns. -/
def invalidateConversation (st : CacheEntries) (id : String) : CacheEntries :=
  invalidatePattern (invalidatePattern (delKey st ("conversation:" ++ id)) ("messages:" ++ id))
    ("files:" ++ id)

end CacheSvc

namespace AiGateway

/-- The amended side-condition of the title claim: the normalized message has
no usable first sentence — no sentence-terminal mark at all, a mark as its very
first character (the regex `^[^.!?]+[.!?]` then fails), or a first mark at
index ≥ 60 (the sentence exceeds 60 characters). -/
def noUsableSentence (m : List Char) : Bool :=
  match firstMarkIdx (normalizeWs m) with
  | none => true
  | some i => i == 0 || decide (60 ≤ i)

/-- An 80-character message without sentence-terminal punctuation, used as a
concrete input for the truncation branch of the title heuristic. -/
def eightyChars : List Char :=
  "some long message that simply keeps going on and on without any punctuation mark".data

end AiGateway

namespace CacheSvc

/-- A factory that computes the empty list (a falsy-but-valid value) on its
first invocation and would throw on any later one: used to witness that the
factory runs exactly once across two `getOrSet` calls. -/
def facOnce : Nat → Except String JsVal :=
  fun j => if j = 1 then Except.ok (JsVal.listv []) else Except.error "second invocation"

end CacheSvc

/-! ## Theorems -/

namespace AiGateway

/-- Unfolding lemma: a retry step is taken after a non-cancellation,
non-client-error failure while attempts remain. -/
theorem run_step (env : Nat → Except JsErr Nat) (a : Nat) (e : JsErr)
    (h : env a = Except.error e) (hnc : isCanceledErr e = false)
    (hncl : isClientErr e = false) (hlt : a < MAX_RETRIES) :
    callAIEngineWithRetry env a =
      ⟨a :: (callAIEngineWithRetry env (a + 1)).started,
       retryDelay a :: (callAIEngineWithRetry env (a + 1)).delays,
       (callAIEngineWithRetry env (a + 1)).result⟩ := by
  rw [callAIEngineWithRetry.eq_def, h]
  simp [hnc, hncl, hlt]

/-- Unfolding lemma: with attempts exhausted, a non-cancellation,
non-client-error failure is rethrown. -/
theorem run_exhaust (env : Nat → Except JsErr Nat) (a : Nat) (e : JsErr)
    (h : env a = Except.error e) (hnc : isCanceledErr e = false)
    (hncl : isClientErr e = false) (hge : MAX_RETRIES ≤ a) :
    callAIEngineWithRetry env a = ⟨[a], [], Except.error e⟩ := by
  rw [callAIEngineWithRetry.eq_def, h]
  simp [hnc, hncl]
  omega

/-- Claim C1, counterexample. The claim states that once the caller
cancellation signal has fired, the retry wrapper never starts another upstream
attempt. In the code the recursive retry call passes no signal onward and no
cancellation check precedes a scheduled retry, so with attempt 1 failing
transiently and the signal firing during the retry delay, attempt 2 is still
started even though the signal has fired by then. -/
theorem retry_attempt_after_cancel_cex :
    ¬ (∀ k ∈ (callAIEngineWithRetry (envWithSignal upFailOnce firedAfterFirst) 1).started,
        firedAfterFirst k = false) := by
  intro hall
  have hmem : 2 ∈ (callAIEngineWithRetry (envWithSignal upFailOnce firedAfterFirst) 1).started := by
    simp [callAIEngineWithRetry, envWithSignal, upFailOnce, firedAfterFirst, isCanceledErr,
      isClientErr, netErr, canceledErr, MAX_RETRIES]
  have h2 := hall 2 hmem
  simp [firedAfterFirst] at h2

/-- Claim C1, amended: a failure classified as cancellation (name
`CanceledError` or code `ERR_CANCELED`) is rethrown immediately — no delay is
waited and no further attempt is started; however the wrapper performs no
cancellation check before a scheduled retry and does not attach the external
signal to retry attempts, so an upstream attempt can still start after the
signal has fired (see the counterexample). -/
theorem cancel_classified_rethrown_immediately (env : Nat → Except JsErr Nat)
    (a : Nat) (e : JsErr) (h : env a = Except.error e)
    (hc : isCanceledErr e = true) :
    callAIEngineWithRetry env a = ⟨[a], [], Except.error e⟩ := by
  rw [callAIEngineWithRetry.eq_def, h]
  simp [hc]

/-- Witness for the amended claim C1 at a concrete input: an environment whose
first attempt throws the axios cancellation error is rethrown with a
single started attempt and no delay. -/
theorem cancel_classified_rethrown_immediately_witness :
    callAIEngineWithRetry (fun _ => Except.error canceledErr) 1 =
      ⟨[1], [], Except.error canceledErr⟩ :=
  cancel_classified_rethrown_immediately (fun _ => Except.error canceledErr) 1
    canceledErr rfl rfl

/-- Claim C2: an upstream attempt that exceeds the hard timeout (120000 ms) is
claimed to be classified as a retriable server-error-class failure. In the
code the hard-timeout timer aborts the same AbortController used for caller
disconnects, axios rejects with a `CanceledError` carrying `ERR_CANCELED`, and
the catch block classifies exactly that shape as cancellation: the error is
rethrown immediately, only one attempt is started and no retry occurs. -/
theorem hard_timeout_classified_as_cancellation :
    isCanceledErr hardTimeoutErr = true
    ∧ isClientErr hardTimeoutErr = false
    ∧ callAIEngineWithRetry (fun _ => Except.error hardTimeoutErr) 1 =
        ⟨[1], [], Except.error hardTimeoutErr⟩ := by
  refine ⟨rfl, rfl, ?_⟩
  rw [callAIEngineWithRetry.eq_def]
  simp [hardTimeoutErr, canceledErr, isCanceledErr]

/-- Claim C3: a failure carrying an upstream HTTP status in 400-499 is
rethrown immediately — one started attempt, no delay; and when every attempt
fails with a non-cancellation, non-client-error failure, exactly
`MAX_RETRIES = 3` attempts are started, the waits between them are exactly
`retryDelay 1 = min (1000 * 2^0) 10000` and `retryDelay 2 = min (1000 * 2^1)
10000` milliseconds, and the error of the last attempt is rethrown. -/
theorem retry_client_error_and_backoff (env : Nat → Except JsErr Nat) (a : Nat)
    (e : JsErr) (f : Nat → JsErr) :
    (env a = Except.error e → isClientErr e = true →
      callAIEngineWithRetry env a = ⟨[a], [], Except.error e⟩)
    ∧ ((∀ k, env k = Except.error (f k)) → (∀ k, isCanceledErr (f k) = false) →
       (∀ k, isClientErr (f k) = false) →
       callAIEngineWithRetry env 1 =
         ⟨[1, 2, 3], [retryDelay 1, retryDelay 2], Except.error (f 3)⟩) := by
  constructor
  · intro h h4
    rw [callAIEngineWithRetry.eq_def, h]
    by_cases hc : isCanceledErr e = true
    · simp [hc]
    · simp [hc, h4]
  · intro henv hnc hncl
    have s1 := run_step env 1 (f 1) (henv 1) (hnc 1) (hncl 1) (by decide)
    have s2 := run_step env 2 (f 2) (henv 2) (hnc 2) (hncl 2) (by decide)
    have s3 := run_exhaust env 3 (f 3) (henv 3) (hnc 3) (hncl 3) (by decide)
    rw [s1, s2, s3]

/-- Witness for claim C3 at concrete inputs: a 404 client error is rethrown at
once with no delay, and an environment failing every attempt with a 503 server
error runs attempts 1, 2, 3 with waits of 1000 ms and 2000 ms and rethrows the
last 503. -/
theorem retry_client_error_and_backoff_witness :
    callAIEngineWithRetry (fun _ => Except.error ⟨"Error", "ERR_BAD_REQUEST", some 404⟩) 1 =
      ⟨[1], [], Except.error ⟨"Error", "ERR_BAD_REQUEST", some 404⟩⟩
    ∧ callAIEngineWithRetry (fun _ => Except.error ⟨"Error", "ERR_BAD_RESPONSE", some 503⟩) 1 =
        ⟨[1, 2, 3], [1000, 2000], Except.error ⟨"Error", "ERR_BAD_RESPONSE", some 503⟩⟩ := by
  constructor
  · exact (retry_client_error_and_backoff
      (fun _ => Except.error ⟨"Error", "ERR_BAD_REQUEST", some 404⟩) 1
      ⟨"Error", "ERR_BAD_REQUEST", some 404⟩
      (fun _ => ⟨"Error", "ERR_BAD_REQUEST", some 404⟩)).1 rfl (by decide)
  · exact (retry_client_error_and_backoff
      (fun _ => Except.error ⟨"Error", "ERR_BAD_RESPONSE", some 503⟩) 1
      ⟨"Error", "ERR_BAD_RESPONSE", some 503⟩
      (fun _ => ⟨"Error", "ERR_BAD_RESPONSE", some 503⟩)).2
      (fun _ => rfl) (fun _ => by decide) (fun _ => by decide)

/-- Claim C7: when the upstream stream ends naturally and persisting the
accumulated assistant message fails, the claim (and the spec) says the relay
surfaces a single terminal error event. In the code the awaited `saveMessage`
rejects as the first statement of the async `end` listener: no event is
emitted, the observable neither errors nor completes, and the rejection leaks
as an unhandled promise rejection; the successful-save run by contrast emits
the `done` event and completes. -/
theorem save_failure_leaks_unhandled_rejection (e convId : String)
    (dels : List (Except String Unit)) :
    onEndHandler (Except.error e) dels convId =
      { events := [], terminal := Terminal.unhandledRejection e }
    ∧ onEndHandler (Except.ok ()) [Except.ok (), Except.ok (), Except.ok (), Except.ok ()]
        convId =
      { events := [SseEvent.doneEvt convId], terminal := Terminal.completedT } :=
  ⟨rfl, rfl⟩

end AiGateway

namespace RateLimit

/-- Stored counter after `n` requests inside one active window: absent before
the first request, then the number of admitted requests, capped at the limit. -/
theorem runRequests_state (limit : Nat) (h : 0 < limit) :
    ∀ n, (runRequests limit n).1 = if n = 0 then none else some (min n limit) := by
  intro n
  induction n with
  | zero => simp [runRequests]
  | succ n ih =>
    rcases Nat.eq_zero_or_pos n with hn | hn
    · subst hn
      have h1 : min 1 limit = 1 := by omega
      simp [runRequests, checkLimit, h1]
    · have hs : (runRequests limit n).1 = some (min n limit) := by
        rw [ih]; simp [Nat.pos_iff_ne_zero.mp hn]
      by_cases hcap : limit ≤ n
      · have hm : min n limit = limit := by omega
        have hm2 : min (n + 1) limit = limit := by omega
        simp [runRequests, hs, hm, hm2, checkLimit]
      · have hm : min n limit = n := by omega
        have hm2 : min (n + 1) limit = n + 1 := by omega
        have hlt : ¬ limit ≤ n := hcap
        simp [runRequests, hs, hm, hm2, checkLimit, hlt]

/-- Admission results of `n` requests inside one active window: the first
`min n limit` are admitted, the remaining `n - limit` rejected. -/
theorem runRequests_results (limit : Nat) (h : 0 < limit) :
    ∀ n, (runRequests limit n).2 =
      List.replicate (min n limit) true ++ List.replicate (n - limit) false := by
  intro n
  induction n with
  | zero => simp [runRequests]
  | succ n ih =>
    rcases Nat.eq_zero_or_pos n with hn | hn
    · subst hn
      have h1 : min 1 limit = 1 := by omega
      have h2 : 1 - limit = 0 := by omega
      simp [runRequests, checkLimit, h1, h2]
    · have hs : (runRequests limit n).1 = some (min n limit) :=
        (runRequests_state limit h n).trans (by simp [Nat.pos_iff_ne_zero.mp hn])
      by_cases hcap : limit ≤ n
      · have hm : min n limit = limit := by omega
        have hm2 : min (n + 1) limit = limit := by omega
        have hsub : n + 1 - limit = (n - limit) + 1 := by omega
        simp only [runRequests, hs, hm, checkLimit, if_pos (le_refl limit), ih, hm2, hsub,
          List.replicate_succ']
        simp [List.append_assoc]
      · have hm : min n limit = n := by omega
        have hm2 : min (n + 1) limit = n + 1 := by omega
        have hsub : n - limit = 0 := by omega
        have hsub2 : n + 1 - limit = 0 := by omega
        have hlt : ¬ limit ≤ n := hcap
        simp only [runRequests, hs, hm, checkLimit, if_neg hlt, ih, hm2, hsub, hsub2,
          List.replicate_succ']
        simp

/-- Claim C4: inside one active window, with a configured limit of at least
one, the first `limit` requests are admitted (the stored counter starting at 1
and counting the admitted requests) and every later request in the window is
rejected without the counter moving; the stored counter never exceeds the
limit; and a request arriving after the window key expired (absent counter) is
admitted with the counter restarted at 1. -/
theorem checkLimit_window (limit n : Nat) (h : 0 < limit) :
    (runRequests limit n).2 =
      List.replicate (min n limit) true ++ List.replicate (n - limit) false
    ∧ (runRequests limit n).1 = (if n = 0 then none else some (min n limit))
    ∧ (∀ c, (runRequests limit n).1 = some c → c ≤ limit)
    ∧ checkLimit limit none = (true, some 1) := by
  refine ⟨runRequests_results limit h n, runRequests_state limit h n, ?_, rfl⟩
  intro c hc
  rw [runRequests_state limit h n] at hc
  by_cases hn : n = 0
  · simp [hn] at hc
  · simp [hn] at hc
    omega

/-- Witness for claim C4 at limit 2 over 5 requests: the decisions are
admit, admit, reject, reject, reject and the stored counter ends at 2. -/
theorem checkLimit_window_witness :
    (runRequests 2 5).2 = [true, true, false, false, false]
    ∧ (runRequests 2 5).1 = some 2 := by
  have h := checkLimit_window 2 5 (by decide)
  exact ⟨h.1.trans (by decide), h.2.1.trans (by decide)⟩

end RateLimit

namespace StreamReg

/-- Claim C5, counterexample. The claim states every observable session keeps
`expiresAt = lastActivityAt + 300 s`. A session registered at time 0 and
touched by `updateActivity` at time 1000 ms is re-stored with
`lastActivityAt = 1000` but `expiresAt` still 300000, and
`1000 + 300 * 1000 ≠ 300000`. -/
theorem session_invariant_cex :
    updateActivity (registerStream "u" "c" "sid" 0) 1000 =
      some { streamId := "sid", userId := "u", conversationId := "c",
             createdAt := 0, lastActivityAt := 1000, expiresAt := 300000 }
    ∧ (1000 : Nat) + STREAM_TIMEOUT * 1000 ≠ 300000 := by
  exact ⟨rfl, by decide⟩

/-- Claim C5, amended: `registerStream` establishes
`expiresAt = lastActivityAt + 300 s` at creation, but `updateActivity` only
sets `lastActivityAt` to the current time and leaves `expiresAt` (and
`createdAt`) unchanged, so after a keep-alive tick the expiry stays fixed at
creation time + 300 s instead of following the last activity. -/
theorem session_expiry_amended (u c sid : String) (t0 now : Nat)
    (s s2 : StreamInfo) (h : updateActivity s now = some s2) :
    (registerStream u c sid t0).expiresAt =
      (registerStream u c sid t0).lastActivityAt + STREAM_TIMEOUT * 1000
    ∧ s2.lastActivityAt = now ∧ s2.expiresAt = s.expiresAt
    ∧ s2.createdAt = s.createdAt := by
  have h2 : s2 = { s with lastActivityAt := now } := by
    simp only [updateActivity] at h
    split at h
    · injection h with h3
      exact h3.symm
    · exact absurd h (by simp)
  subst h2
  exact ⟨rfl, rfl, rfl, rfl⟩

/-- Witness for the amended claim C5 at a concrete session: registered at 0,
touched at 7000 ms, the re-stored record has `lastActivityAt = 7000` and
`expiresAt` unchanged at 300000. -/
theorem session_expiry_amended_witness :
    (registerStream "u" "c" "sid" 0).expiresAt =
      (registerStream "u" "c" "sid" 0).lastActivityAt + STREAM_TIMEOUT * 1000
    ∧ (StreamInfo.mk "sid" "u" "c" 0 7000 300000).lastActivityAt = 7000
    ∧ (StreamInfo.mk "sid" "u" "c" 0 7000 300000).expiresAt =
        (registerStream "u" "c" "sid" 0).expiresAt
    ∧ (StreamInfo.mk "sid" "u" "c" 0 7000 300000).createdAt =
        (registerStream "u" "c" "sid" 0).createdAt :=
  session_expiry_amended "u" "c" "sid" 0 7000 (registerStream "u" "c" "sid" 0)
    (StreamInfo.mk "sid" "u" "c" 0 7000 300000) rfl

end StreamReg

namespace CacheSvc

/-- Reading back the key just written returns the written value. -/
theorem cacheGet_cacheSet (st : CacheEntries) (k : String) (v : JsVal) (ttl : Nat) :
    cacheGet (cacheSet st k v ttl) k = v := by
  simp [cacheGet, cacheSet, List.find?]

/-- Claim C6: `getOrSet` returns a present cached value — including
falsy-but-valid ones — without invoking the factory; on a miss with a healthy
store it invokes the factory once, stores the value with the given ttl and
returns it, so that a second call with the same key before expiry returns the
value with zero further factory invocations; when the backing store throws on
get, the call degrades to invoking the factory directly; and every error the
caller ever sees is an error of the factory, never the cache error. -/
theorem getOrSet_semantics (key : String) (factory : Nat → Except String JsVal)
    (ttl : Nat) (beh : StoreBeh) (st : CacheEntries) (v : JsVal) :
    (beh.getFails = false → cacheGet st key = v → isPresent v = true →
      getOrSet key factory ttl beh st = ⟨Except.ok v, st, 0⟩)
    ∧ (beh.getFails = false → beh.setFails = false →
       isPresent (cacheGet st key) = false → factory 1 = Except.ok v →
       isPresent v = true →
       getOrSet key factory ttl beh st = ⟨Except.ok v, cacheSet st key v ttl, 1⟩
       ∧ getOrSet key factory ttl beh (cacheSet st key v ttl) =
           ⟨Except.ok v, cacheSet st key v ttl, 0⟩)
    ∧ (beh.getFails = true → getOrSet key factory ttl beh st = ⟨factory 1, st, 1⟩)
    ∧ (∀ e, (getOrSet key factory ttl beh st).result = Except.error e →
        factory 1 = Except.error e ∨ factory 2 = Except.error e) := by
  refine ⟨?_, ?_, ?_, ?_⟩
  · intro hg hc hp
    simp [getOrSet, hg, hc, hp]
  · intro hg hs hm hf hp
    constructor
    · simp [getOrSet, hg, hm, hf, hs]
    · have hc := cacheGet_cacheSet st key v ttl
      simp [getOrSet, hg, hc, hp]
  · intro hg
    simp [getOrSet, hg]
  · intro e he
    by_cases hg : beh.getFails
    · simp [getOrSet, hg] at he
      exact Or.inl he
    · by_cases hp : isPresent (cacheGet st key)
      · simp [getOrSet, hg, hp] at he
      · rcases hf : factory 1 with e1 | v1
        · simp [getOrSet, hg, hp, hf] at he
          exact Or.inr he
        · by_cases hs : beh.setFails
          · simp [getOrSet, hg, hp, hf, hs] at he
            exact Or.inr he
          · simp [getOrSet, hg, hp, hf, hs] at he

/-- Witness for claim C6 at concrete inputs: with a healthy store and an empty
cache, `getOrSet` of key `k` with a factory computing the empty list invokes
the factory once and stores the empty list; the second call returns the cached
empty list (a falsy-but-valid value) with zero factory invocations; with a
failing store get, the call returns the factory outcome directly. -/
theorem getOrSet_semantics_witness :
    getOrSet "k" facOnce 300 ⟨false, false⟩ [] =
      ⟨Except.ok (JsVal.listv []), cacheSet [] "k" (JsVal.listv []) 300, 1⟩
    ∧ getOrSet "k" facOnce 300 ⟨false, false⟩ (cacheSet [] "k" (JsVal.listv []) 300) =
        ⟨Except.ok (JsVal.listv []), cacheSet [] "k" (JsVal.listv []) 300, 0⟩
    ∧ getOrSet "k" facOnce 300 ⟨true, false⟩ [] = ⟨facOnce 1, [], 1⟩ := by
  have h1 := (getOrSet_semantics "k" facOnce 300 ⟨false, false⟩ [] (JsVal.listv [])).2.1
    rfl rfl rfl rfl rfl
  have h2 := (getOrSet_semantics "k" facOnce 300 ⟨true, false⟩ [] (JsVal.listv [])).2.2.1 rfl
  exact ⟨h1.1, h1.2, h2⟩

/-- Claim C10: on a miss with a healthy backing store, a factory that throws
on its first invocation lands in the catch block, which treats the exception
as a cache error and invokes the factory a second time; the caller observes
the outcome of that second invocation (value or exception), the factory runs
twice, and nothing is stored. -/
theorem getOrSet_factory_throw_twice (key : String)
    (factory : Nat → Except String JsVal) (ttl : Nat) (st : CacheEntries)
    (e : String) (hmiss : isPresent (cacheGet st key) = false)
    (hf : factory 1 = Except.error e) :
    getOrSet key factory ttl ⟨false, false⟩ st = ⟨factory 2, st, 2⟩ := by
  simp [getOrSet, hmiss, hf]

/-- Witness for claim C10 at a concrete input: on an empty cache, a factory
throwing `boom` first and computing 7 second makes `getOrSet` return 7 with
two factory invocations and the cache untouched. -/
theorem getOrSet_factory_throw_twice_witness :
    getOrSet "k"
        (fun j => if j = 1 then Except.error "boom" else Except.ok (JsVal.numv 7))
        300 ⟨false, false⟩ [] =
      ⟨Except.ok (JsVal.numv 7), [], 2⟩ :=
  getOrSet_factory_throw_twice "k"
    (fun j => if j = 1 then Except.error "boom" else Except.ok (JsVal.numv 7))
    300 [] "boom" rfl rfl

/-- `invalidateConversation` collapsed to a single filter over the store. -/
theorem invConv_eq_filter (st : CacheEntries) (id : String) :
    invalidateConversation st id =
      List.filter
        (fun p => !(jsIncludes p.1 ("files:" ++ id))
          && (!(jsIncludes p.1 ("messages:" ++ id)) && !(p.1 == "conversation:" ++ id))) st := by
  simp only [invalidateConversation, invalidatePattern, delKey, List.filter_filter]

/-- Claim C8: after `invalidateConversation id` the store holds exactly the
entries whose key is not the conversation-detail key `conversation:<id>` and
does not contain `messages:<id>` nor `files:<id>` as a substring; the
operation is idempotent; and on a store with no matching entries it is a no-op
(the store is returned unchanged and, every operation being total, no error is
raised). -/
theorem invalidateConversation_spec (st : CacheEntries) (id : String) :
    (∀ p, p ∈ invalidateConversation st id ↔
      p ∈ st ∧ ¬ p.1 = "conversation:" ++ id
        ∧ jsIncludes p.1 ("messages:" ++ id) = false
        ∧ jsIncludes p.1 ("files:" ++ id) = false)
    ∧ invalidateConversation (invalidateConversation st id) id =
        invalidateConversation st id
    ∧ ((∀ p ∈ st, ¬ p.1 = "conversation:" ++ id
        ∧ jsIncludes p.1 ("messages:" ++ id) = false
        ∧ jsIncludes p.1 ("files:" ++ id) = false) →
      invalidateConversation st id = st) := by
  refine ⟨?_, ?_, ?_⟩
  · intro p
    rw [invConv_eq_filter]
    simp only [List.mem_filter, Bool.and_eq_true, Bool.not_eq_true', beq_eq_false_iff_ne,
      ne_eq]
    tauto
  · rw [invConv_eq_filter st id, invConv_eq_filter, List.filter_filter]
    congr 1
    funext p
    cases jsIncludes p.1 ("files:" ++ id) <;>
      cases jsIncludes p.1 ("messages:" ++ id) <;>
        cases p.1 == "conversation:" ++ id <;> rfl
  · intro h
    rw [invConv_eq_filter]
    refine List.filter_eq_self.mpr ?_
    intro p hp
    obtain ⟨h1, h2, h3⟩ := h p hp
    simp [h2, h3, h1]

/-- Witness for claim C8 at a concrete input: on a store holding one unrelated
entry, invalidating conversation 42 leaves the store unchanged. -/
theorem invalidateConversation_spec_witness :
    invalidateConversation [("user:1", JsVal.numv 0, 60)] "42" =
      [("user:1", JsVal.numv 0, 60)] :=
  (invalidateConversation_spec [("user:1", JsVal.numv 0, 60)] "42").2.2 (by decide)

end CacheSvc

namespace AiGateway

/-- Sentence-terminal marks are not whitespace. -/
theorem mark_not_ws (c : Char) (h : isTermMark c = true) : isWsChar c = false := by
  simp only [isTermMark, Bool.or_eq_true, beq_iff_eq] at h
  rcases h with (h | h) | h <;> subst h <;> decide

/-- The head of a left-trimmed-and-right-trimmed list is not whitespace. -/
theorem trimWs_head_not_ws (m : List Char) (c : Char)
    (h : (trimWs m).head? = some c) : isWsChar c = false := by
  unfold trimWs at h
  have hpre : ((m.dropWhile isWsChar).reverse.dropWhile isWsChar).reverse <+:
      m.dropWhile isWsChar := by
    have hs := List.dropWhile_suffix (l := (m.dropWhile isWsChar).reverse) isWsChar
    have h2 := List.reverse_prefix.mpr hs
    rwa [List.reverse_reverse] at h2
  obtain ⟨r, hr⟩ := hpre
  have hx : (m.dropWhile isWsChar).head? = some c := by
    rw [← hr, List.head?_append, h]
    rfl
  have h3 := List.head?_dropWhile_not isWsChar m
  rw [hx] at h3
  exact h3

/-- Trimming is the identity on a list whose two ends are not whitespace. -/
theorem trimWs_noop (l : List Char)
    (h1 : ∀ c, l.head? = some c → isWsChar c = false)
    (h2 : ∀ c, l.getLast? = some c → isWsChar c = false) : trimWs l = l := by
  unfold trimWs
  have d1 : l.dropWhile isWsChar = l := by
    cases l with
    | nil => rfl
    | cons a t =>
      have ha := h1 a rfl
      rw [List.dropWhile_cons, ha]
      simp
  rw [d1]
  have d2 : l.reverse.dropWhile isWsChar = l.reverse := by
    cases hrev : l.reverse with
    | nil => rfl
    | cons a t =>
      have ha : l.getLast? = some a := by
        rw [← List.head?_reverse, hrev]
        rfl
      have hw := h2 a ha
      rw [List.dropWhile_cons, hw]
      simp
  rw [d2, List.reverse_reverse]

/-- The head of a whitespace-normalized message is not whitespace. -/
theorem normalizeWs_head_not_ws (m : List Char) (c : Char)
    (h : (normalizeWs m).head? = some c) : isWsChar c = false := by
  unfold normalizeWs at h
  cases htr : trimWs m with
  | nil =>
    rw [htr] at h
    simp [squeezeWsAux] at h
  | cons a t =>
    have ha : isWsChar a = false := trimWs_head_not_ws m a (by rw [htr]; rfl)
    rw [htr] at h
    simp only [squeezeWsAux, ha] at h
    simp at h
    rw [← h]
    exact ha

/-- One-step unfolding of the first-mark index. -/
theorem firstMarkIdx_cons (a : Char) (t : List Char) :
    firstMarkIdx (a :: t) =
      if isTermMark a then some 0
      else Option.map (fun i => i + 1) (firstMarkIdx t) := by
  by_cases ha : isTermMark a = true
  · simp [firstMarkIdx, ha]
  · have ha2 : isTermMark a = false := by simpa using ha
    rcases h : firstMarkIdx t with _ | i <;> simp [firstMarkIdx, ha2, h]

/-- Without a sentence-terminal mark, the leading non-mark run is everything. -/
theorem takeWhile_no_mark (l : List Char) (h : firstMarkIdx l = none) :
    l.takeWhile (fun c => !isTermMark c) = l := by
  induction l with
  | nil => rfl
  | cons a t ih =>
    rw [firstMarkIdx_cons] at h
    by_cases ha : isTermMark a = true
    · rw [if_pos ha] at h
      cases h
    · have ha2 : isTermMark a = false := by simpa using ha
      rw [if_neg ha] at h
      have ht : firstMarkIdx t = none := by
        rcases hh : firstMarkIdx t with _ | i
        · rfl
        · rw [hh] at h
          cases h
      rw [List.takeWhile_cons]
      simp [ha2, ih ht]

/-- The first mark at index i splits the list: the leading non-mark run is
the first i characters, and a mark sits at position i. -/
theorem firstMarkIdx_take_drop (l : List Char) (i : Nat)
    (h : firstMarkIdx l = some i) :
    l.takeWhile (fun c => !isTermMark c) = l.take i
    ∧ ∃ c rest, l.drop i = c :: rest ∧ isTermMark c = true := by
  induction l generalizing i with
  | nil => cases h
  | cons a t ih =>
    rw [firstMarkIdx_cons] at h
    by_cases ha : isTermMark a = true
    · rw [if_pos ha] at h
      injection h with h0
      subst h0
      constructor
      · rw [List.takeWhile_cons]
        simp [ha]
      · exact ⟨a, t, rfl, ha⟩
    · have ha2 : isTermMark a = false := by simpa using ha
      rw [if_neg ha, Option.map_eq_some'] at h
      obtain ⟨i2, hi2, hmap⟩ := h
      subst hmap
      obtain ⟨htw, c, rest, hd, hm⟩ := ih i2 hi2
      constructor
      · rw [List.takeWhile_cons]
        simp only [ha2, Bool.not_false, if_pos]
        rw [htw, List.take_succ_cons]
      · exact ⟨c, rest, by simpa [List.drop_succ_cons] using hd, hm⟩

/-- With no mark anywhere, the first-sentence regex does not match. -/
theorem firstSentence_none_of_no_mark (l : List Char) (h : firstMarkIdx l = none) :
    firstSentence l = none := by
  simp only [firstSentence]
  rw [takeWhile_no_mark l h, List.drop_length]
  split <;> rfl

/-- With the very first character a mark, the regex (which needs a nonempty
non-mark run first) does not match. -/
theorem firstSentence_none_of_mark_zero (l : List Char)
    (h : firstMarkIdx l = some 0) : firstSentence l = none := by
  obtain ⟨htw, c, rest, hd, hm⟩ := firstMarkIdx_take_drop l 0 h
  simp only [firstSentence]
  rw [htw]
  simp

/-- With the first mark of the normalized message at index i ≥ 1, the matched
sentence is the first i+1 characters, it is already trimmed, and its length is
i + 1. -/
theorem sentence_form (m : List Char) (i : Nat)
    (h : firstMarkIdx (normalizeWs m) = some i) (h1 : 1 ≤ i) :
    ∃ c, firstSentence (normalizeWs m) = some ((normalizeWs m).take i ++ [c])
      ∧ trimWs ((normalizeWs m).take i ++ [c]) = (normalizeWs m).take i ++ [c]
      ∧ ((normalizeWs m).take i ++ [c]).length = i + 1
      ∧ (normalizeWs m).take (i + 1) = (normalizeWs m).take i ++ [c] := by
  obtain ⟨htw, c, rest, hd, hm⟩ := firstMarkIdx_take_drop (normalizeWs m) i h
  have hlen : i < (normalizeWs m).length := by
    have h2 := congrArg List.length hd
    simp [List.length_drop] at h2
    omega
  have hplen : ((normalizeWs m).take i).length = i := by
    simp [List.length_take]
    omega
  have hne : ((normalizeWs m).take i).isEmpty = false := by
    rcases ht : (normalizeWs m).take i with _ | ⟨x, xs⟩
    · exfalso
      have h3 := congrArg List.length ht
      rw [hplen] at h3
      simp at h3
      omega
    · rfl
  refine ⟨c, ?_, ?_, ?_, ?_⟩
  · simp only [firstSentence]
    rw [htw]
    simp [hne, hplen, hd]
  · refine trimWs_noop _ ?_ ?_
    · intro d hdd
      rcases hcl : normalizeWs m with _ | ⟨a, t⟩
      · rw [hcl] at hlen
        simp at hlen
      · have hi : i = (i - 1) + 1 := by omega
        rw [hcl, hi, List.take_succ_cons] at hdd
        simp at hdd
        have ha : isWsChar a = false := normalizeWs_head_not_ws m a (by rw [hcl]; rfl)
        rw [← hdd]
        exact ha
    · intro d hdd
      rw [List.getLast?_concat] at hdd
      injection hdd with hdd
      rw [← hdd]
      exact mark_not_ws c hm
  · simp [List.length_take]
    omega
  · have hl2 : (normalizeWs m).take i ++ (c :: rest) = normalizeWs m := by
      rw [← hd, List.take_append_drop]
    have hget : (normalizeWs m)[i]? = some c := by
      conv_lhs => rw [← hl2]
      rw [List.getElem?_append_right (by rw [hplen])]
      rw [hplen]
      simp
    rw [List.take_succ, hget]
    rfl

end AiGateway

namespace AiGateway

/-- Sentence branch of the title heuristic: with the first mark of the
normalized message at index i, 1 ≤ i < 60, the title is the normalized text up
to and including that mark. -/
theorem title_sentence_branch (m : List Char) (i : Nat)
    (h : firstMarkIdx (normalizeWs m) = some i) (h1 : 1 ≤ i) (h60 : i < 60) :
    generateTitleFromMessage m = (normalizeWs m).take (i + 1) := by
  obtain ⟨c, hfs, htrim, hslen, htake⟩ := sentence_form m i h h1
  have h61 : i + 1 ≤ 60 := by omega
  simp only [generateTitleFromMessage, hfs, htrim, hslen, if_pos h61]
  rw [htake]

/-- Fallback branch of the title heuristic: with no usable first sentence, a
normalized message of at most 50 characters is returned verbatim; a longer one
is cut to its first 50 characters, cut back further to the last space when
that space sits at an index above 30, and suffixed with an ellipsis — the kept
text never exceeding 50 characters. -/
theorem title_fallback_branch (m : List Char) (hns : noUsableSentence m = true) :
    ((normalizeWs m).length ≤ 50 → generateTitleFromMessage m = normalizeWs m)
    ∧ (50 < (normalizeWs m).length →
       ∃ t, generateTitleFromMessage m = t ++ ellipsis ∧ t.length ≤ 50
         ∧ ((∃ j, lastIdxOf ' ' ((normalizeWs m).take 50) = some j ∧ 30 < j
               ∧ t = ((normalizeWs m).take 50).take j)
            ∨ (t = (normalizeWs m).take 50
               ∧ ∀ j, lastIdxOf ' ' ((normalizeWs m).take 50) = some j → j ≤ 30))) := by
  have hsp : (match firstSentence (normalizeWs m) with
      | some s0 => if (trimWs s0).length ≤ 60 then some (trimWs s0) else none
      | none => none) = (none : Option (List Char)) := by
    unfold noUsableSentence at hns
    rcases hidx : firstMarkIdx (normalizeWs m) with _ | i
    · rw [firstSentence_none_of_no_mark _ hidx]
    · rw [hidx] at hns
      simp only [Bool.or_eq_true, beq_iff_eq, decide_eq_true_eq] at hns
      rcases hns with h0 | h60
      · subst h0
        rw [firstSentence_none_of_mark_zero _ hidx]
      · have h1 : 1 ≤ i := by omega
        obtain ⟨c, hfs, htrim, hslen, htake⟩ := sentence_form m i hidx h1
        rw [hfs]
        simp only [htrim, hslen]
        rw [if_neg (by omega)]
  constructor
  · intro hle
    simp only [generateTitleFromMessage, hsp, if_pos hle]
  · intro hgt
    have hgt2 : ¬ (normalizeWs m).length ≤ 50 := by omega
    rcases hj : lastIdxOf ' ' ((normalizeWs m).take 50) with _ | j
    · refine ⟨(normalizeWs m).take 50, ?_, ?_, Or.inr ⟨rfl, ?_⟩⟩
      · simp only [generateTitleFromMessage, hsp, if_neg hgt2, hj]
      · simp [List.length_take]
      · intro j2 hj2
        cases hj2
    · by_cases h30 : 30 < j
      · refine ⟨((normalizeWs m).take 50).take j, ?_, ?_, Or.inl ⟨j, rfl, h30, rfl⟩⟩
        · simp only [generateTitleFromMessage, hsp, if_neg hgt2, hj, if_pos h30]
        · simp [List.length_take]
      · refine ⟨(normalizeWs m).take 50, ?_, ?_, Or.inr ⟨rfl, ?_⟩⟩
        · simp only [generateTitleFromMessage, hsp, if_neg hgt2, hj, if_neg h30]
        · simp [List.length_take]
        · intro j2 hj2
          injection hj2 with hj2
          omega

/-- Claim C9, counterexample. The claim states that whenever a
sentence-terminal mark occurs within the first 60 characters of the normalized
message the title is the text up to and including that mark. On the input
`?hi` the first mark sits at index 0 (within the first 60 characters), yet the
regex `^[^.!?]+[.!?]` requires at least one non-mark character before the
mark, so the code falls through and returns `?hi` verbatim instead of `?`. -/
theorem title_claim_cex :
    firstMarkIdx (normalizeWs (String.data "?hi")) = some 0
    ∧ generateTitleFromMessage (String.data "?hi") ≠
        (normalizeWs (String.data "?hi")).take (0 + 1) := by
  constructor
  · decide
  · decide

/-- Claim C9, amended: the title heuristic normalizes whitespace; when the
normalized message starts with a non-terminal character and its first
sentence-terminal mark sits at an index i with 1 ≤ i < 60 (so the matched
sentence fits in 60 characters), the title is the text up to and including
that mark; otherwise a normalized message of at most 50 characters is returned
verbatim, and a longer one is truncated to 50 characters, cut back to the last
word boundary when it lies beyond position 30, with an ellipsis appended — the
kept text having at most 50 characters. -/
theorem title_heuristic_amended (m : List Char) :
    (∀ i, firstMarkIdx (normalizeWs m) = some i → 1 ≤ i → i < 60 →
      generateTitleFromMessage m = (normalizeWs m).take (i + 1))
    ∧ (noUsableSentence m = true →
       ((normalizeWs m).length ≤ 50 → generateTitleFromMessage m = normalizeWs m)
       ∧ (50 < (normalizeWs m).length →
          ∃ t, generateTitleFromMessage m = t ++ ellipsis ∧ t.length ≤ 50
            ∧ ((∃ j, lastIdxOf ' ' ((normalizeWs m).take 50) = some j ∧ 30 < j
                  ∧ t = ((normalizeWs m).take 50).take j)
               ∨ (t = (normalizeWs m).take 50
                  ∧ ∀ j, lastIdxOf ' ' ((normalizeWs m).take 50) = some j → j ≤ 30)))) :=
  ⟨fun i h h1 h60 => title_sentence_branch m i h h1 h60,
   fun hns => title_fallback_branch m hns⟩

/-- Witness for the amended claim C9 at concrete inputs: the message
`Hi there! How are you?` has its first mark at index 8 and titles to
`Hi there!`; the 80-character unpunctuated message goes through the truncation
branch, yielding a kept text of at most 50 characters followed by an ellipsis. -/
theorem title_heuristic_amended_witness :
    generateTitleFromMessage (String.data "Hi there! How are you?") =
      String.data "Hi there!"
    ∧ (∃ t, generateTitleFromMessage eightyChars = t ++ ellipsis ∧ t.length ≤ 50
        ∧ ((∃ j, lastIdxOf ' ' ((normalizeWs eightyChars).take 50) = some j ∧ 30 < j
              ∧ t = ((normalizeWs eightyChars).take 50).take j)
           ∨ (t = (normalizeWs eightyChars).take 50
              ∧ ∀ j, lastIdxOf ' ' ((normalizeWs eightyChars).take 50) = some j → j ≤ 30))) := by
  constructor
  · have h := (title_heuristic_amended (String.data "Hi there! How are you?")).1 8
      (by decide) (by decide) (by decide)
    exact h.trans (by decide)
  · exact ((title_heuristic_amended eightyChars).2 (by decide)).2 (by decide)

end AiGateway
